import Mathlib

/-!
Shallow embedding of the employee-management data-access layer:
the Mongoose `Employee` model (src/models/Employee.model.ts), the
`EmployeeService` (src/services/employee.service.ts), the Redis-backed
`CacheService` (src/services/cache.service.ts) and the GraphQL
`employeeResolver` (src/graphql/resolvers/employee.resolver.ts).

Modelling conventions:
* MongoDB object ids are `Nat`; dates are `Nat` tick counts.
* GraphQL `Int` values (page, limit, age) are `Int`.
* JSON serialisation into the cache is modelled as the identity on a
  typed value (`CacheVal`); the string cache key
  `employees:{JSON.stringify({query, skip, limit, sort})}` is modelled by
  the injective constructor `CacheKey.list query skip limit sort`, and
  `employee:{id}` by `CacheKey.single id`; the Redis glob
  `employees:*` matches exactly the `CacheKey.list` keys.
* Averages and attendance rates (JS floating-point arithmetic on exact
  small integers) are modelled over `Rat`.
* The store's `$regex` filters (used without anchors, `i` flag) are
  modelled as case-insensitive substring tests.
* MongoDB text-score ordering and general sort order are modelled by a
  comparator-based insertion sort; no claim depends on the ordering.
* Each service call appends the cache/store accesses it performs to an
  event log carried in the state `St`.
-/

inductive AttStatus
  | present
  | absent
  | late
deriving DecidableEq, Repr

structure AttendanceEntry where
  date : Nat
  status : AttStatus
  remarks : Option String
deriving DecidableEq, Repr

/-- An employee document (src/models/Employee.model.ts).  The schema field
`class` is a Lean keyword and is embedded as `cls`. -/
structure Employee where
  id : Nat
  employeeId : String
  name : String
  email : String
  age : Int
  cls : String
  subjects : List String
  attendance : List AttendanceEntry
  joiningDate : Nat
  salary : Option Int
  department : Option String
  isActive : Bool
  createdBy : Nat
  createdAt : Nat
deriving DecidableEq, Repr

/-- The GraphQL `EmployeeFilterInput`, plus the `_id` key which the
`employees` resolver injects for member-role callers (`queryFilter =
{ _id: context.user.employeeRef }`). -/
structure EmployeeFilter where
  name : Option String := none
  email : Option String := none
  cls : Option String := none
  department : Option String := none
  ageMin : Option Int := none
  ageMax : Option Int := none
  subject : Option String := none
  isActive : Option Bool := none
  idEq : Option Nat := none
deriving DecidableEq, Repr

def emptyFilter : EmployeeFilter := {}

inductive SortOrderSpec
  | asc
  | desc
deriving DecidableEq, Repr

structure SortSpec where
  field : String
  order : SortOrderSpec
deriving DecidableEq, Repr

def defaultSort : SortSpec := { field := "createdAt", order := SortOrderSpec.desc }

structure PaginationInput where
  page : Int
  limit : Int
deriving DecidableEq, Repr

def defaultPagination : PaginationInput := { page := 1, limit := 10 }

/-- The normalised MongoDB query object built by
`EmployeeService.getEmployees` (lines 145-175 of the service).  Note that
the service copies only the named filter fields; in particular a filter
key `_id` is never read, so it does not occur here. -/
structure NormQuery where
  isActive : Bool
  name : Option String
  email : Option String
  cls : Option String
  department : Option String
  ageMin : Option Int
  ageMax : Option Int
  subject : Option String
deriving DecidableEq, Repr

/-- Builds the query: `{ isActive: true }` plus one entry per present
filter field, with an explicit boolean `filter.isActive` overriding the
active default.  The filter's `idEq` (`_id`) key is dropped, exactly as in
the source, which never inspects `filter._id`. -/
def buildQuery (f : EmployeeFilter) : NormQuery :=
  { isActive := match f.isActive with
      | some b => b
      | none => true
    name := f.name
    email := f.email
    cls := f.cls
    department := f.department
    ageMin := f.ageMin
    ageMax := f.ageMax
    subject := f.subject }

def listInfix (pat : List Char) : List Char → Bool
  | [] => pat.isEmpty
  | c :: t => pat.isPrefixOf (c :: t) || listInfix pat t

/-- Case-insensitive substring test, modelling the unanchored
`$regex ... $options: 'i'` match. -/
def strContainsCI (hay pat : String) : Bool :=
  listInfix pat.toLower.data hay.toLower.data

def optMatch {α : Type} (o : Option α) (p : α → Bool) : Bool :=
  match o with
  | none => true
  | some a => p a

/-- Whether a document satisfies the normalised query, following MongoDB
semantics for each operator used by the service ($regex-i as substring,
`subjects: s` as array membership, `$gte`/`$lte` bounds). -/
def matchesQuery (q : NormQuery) (e : Employee) : Bool :=
  (e.isActive == q.isActive) &&
  optMatch q.name (fun s => strContainsCI e.name s) &&
  optMatch q.email (fun s => strContainsCI e.email s) &&
  optMatch q.cls (fun s => e.cls == s) &&
  optMatch q.department (fun s => e.department == some s) &&
  optMatch q.ageMin (fun a => a ≤ e.age) &&
  optMatch q.ageMax (fun a => e.age ≤ a) &&
  optMatch q.subject (fun s => e.subjects.contains s)

/-- Field comparator backing the store's `.sort({ [sortField]: order })`.
Fields not in the model's schema compare equal, which leaves the incoming
order untouched. -/
def fieldLe (f : String) (a b : Employee) : Bool :=
  if f = "name" then a.name ≤ b.name
  else if f = "email" then a.email ≤ b.email
  else if f = "age" then a.age ≤ b.age
  else if f = "employeeId" then a.employeeId ≤ b.employeeId
  else if f = "createdAt" then a.createdAt ≤ b.createdAt
  else true

def insertLe (le : Employee → Employee → Bool) (e : Employee) : List Employee → List Employee
  | [] => [e]
  | x :: xs => if le e x then e :: x :: xs else x :: insertLe le e xs

def sortByLe (le : Employee → Employee → Bool) : List Employee → List Employee
  | [] => []
  | x :: xs => insertLe le x (sortByLe le xs)

/-- The sort configuration of `getEmployees`: `sort.field || 'createdAt'`
(a falsy/empty field name falls back to `createdAt`) and ascending or
descending comparator per `sort.order`. -/
def sortEmployees (sort : SortSpec) (l : List Employee) : List Employee :=
  let f := if sort.field = "" then "createdAt" else sort.field
  match sort.order with
  | SortOrderSpec.asc => sortByLe (fieldLe f) l
  | SortOrderSpec.desc => sortByLe (fun a b => fieldLe f b a) l

/-- Cursor `.limit(n)` semantics: `limit(0)` imposes no limit and a
negative argument behaves like its absolute value. -/
def limitTake (limit : Int) (l : List Employee) : List Employee :=
  if limit = 0 then l else l.take limit.natAbs

/-- The `Math.ceil(total / limit)` of the service for a positive limit;
a non-positive limit (which produces a non-finite JS value, unreachable
for valid page specs) is mapped to 0. -/
def pagesOf (total : Nat) (limit : Int) : Int :=
  if 0 < limit then Int.ofNat ((total + limit.toNat - 1) / limit.toNat) else 0

structure PaginationInfo where
  total : Nat
  page : Int
  limit : Int
  pages : Int
  hasNextPage : Bool
  hasPrevPage : Bool
deriving DecidableEq, Repr

structure EmployeeConnection where
  data : List Employee
  pagination : PaginationInfo
deriving DecidableEq, Repr

/-! ### Cache model -/

inductive CacheKey
  | list (query : NormQuery) (skip : Int) (limit : Int) (sort : SortSpec)
  | single (id : Nat)
deriving DecidableEq, Repr

inductive CacheVal
  | list (r : EmployeeConnection)
  | single (e : Employee)
deriving DecidableEq, Repr

/-- State of the Redis-backed cache: connection flag as tracked by the
`CacheService` event handlers, a failure flag modelling calls that raise,
and the stored entries. -/
structure CacheState where
  connected : Bool
  failing : Bool
  entries : List (CacheKey × CacheVal)
deriving DecidableEq, Repr

/-- The raw client `get`: raises (an `error`) when the connection is in
the failing mode, otherwise looks the key up. -/
def redisGet (c : CacheState) (k : CacheKey) : Except String (Option CacheVal) :=
  if c.failing then Except.error "connection error"
  else Except.ok ((c.entries.find? (fun p => p.1 == k)).map Prod.snd)

/-- `CacheService.get`: skips the client when disconnected and converts a
client error into a miss (`null`), never rethrowing. -/
def cacheGet (c : CacheState) (k : CacheKey) : Option CacheVal :=
  if !c.connected then none
  else
    match redisGet c k with
    | Except.error _ => none
    | Except.ok v => v

/-- `CacheService.set` (TTL only bounds lifetime and is not modelled):
no-op when disconnected or when the client call errors. -/
def cacheSet (c : CacheState) (k : CacheKey) (v : CacheVal) : CacheState :=
  if !c.connected then c
  else if c.failing then c
  else { c with entries := (k, v) :: c.entries.filter (fun p => !(p.1 == k)) }

/-- `CacheService.delete`: no-op when disconnected or erroring. -/
def cacheDelete (c : CacheState) (k : CacheKey) : CacheState :=
  if !c.connected then c
  else if c.failing then c
  else { c with entries := c.entries.filter (fun p => !(p.1 == k)) }

def isListKey : CacheKey → Bool
  | CacheKey.list _ _ _ _ => true
  | CacheKey.single _ => false

/-- `CacheService.deletePattern('employees:*')`: deletes every key of the
list namespace; no-op when disconnected or erroring. -/
def cacheDeletePattern (c : CacheState) : CacheState :=
  if !c.connected then c
  else if c.failing then c
  else { c with entries := c.entries.filter (fun p => !isListKey p.1) }

/-! ### Service state, errors and the access log -/

inductive Err
  | unauthenticated
  | forbidden (msg : String)
  | notFound
  | duplicateEmail
  | validationError
  | storeError
deriving DecidableEq, Repr

inductive Ev
  | cacheGetEv (k : CacheKey)
  | cacheSetEv (k : CacheKey)
  | cacheDeleteEv (k : CacheKey)
  | cacheDeletePatternEv
  | storeFindEv
  | storeCountEv
  | storeFindOneEv
  | storeInsertEv
  | storeUpdateEv (id : Nat)
  | storeAggregateEv
deriving DecidableEq, Repr

structure St where
  store : List Employee
  cache : CacheState
  log : List Ev
deriving DecidableEq, Repr

/-! ### EmployeeService -/

def listKey (filter : EmployeeFilter) (pag : PaginationInput) (sort : SortSpec) : CacheKey :=
  CacheKey.list (buildQuery filter) ((pag.page - 1) * pag.limit) pag.limit sort

/-- The store round trip of `getEmployees` on a cache miss: filter, sort,
`.skip(skip).limit(limit)`, an independent `countDocuments`, and the
pagination envelope.  A negative skip is rejected by MongoDB and surfaces
as a store error. -/
def listFromStore (filter : EmployeeFilter) (pag : PaginationInput) (sort : SortSpec)
    (store : List Employee) : Except Err EmployeeConnection :=
  let skip := (pag.page - 1) * pag.limit
  if skip < 0 then Except.error Err.storeError
  else
    let q := buildQuery filter
    let matching := store.filter (fun e => matchesQuery q e)
    let total := matching.length
    Except.ok
      { data := limitTake pag.limit ((sortEmployees sort matching).drop skip.toNat)
        pagination :=
          { total := total
            page := pag.page
            limit := pag.limit
            pages := pagesOf total pag.limit
            hasNextPage := decide (pag.page < pagesOf total pag.limit)
            hasPrevPage := decide (1 < pag.page) } }

/-- `EmployeeService.getEmployees`: build query and cache key, serve a
cache hit unchanged, otherwise query the store and populate the cache.
A cached value of the wrong shape under a list key cannot be produced by
the service and is totalised as a store error. -/
def getEmployees (filter : EmployeeFilter) (pag : PaginationInput) (sort : SortSpec)
    (s : St) : Except Err EmployeeConnection × St :=
  let key := listKey filter pag sort
  let s1 : St := { s with log := s.log ++ [Ev.cacheGetEv key] }
  match cacheGet s1.cache key with
  | some (CacheVal.list r) => (Except.ok r, s1)
  | some (CacheVal.single _) => (Except.error Err.storeError, s1)
  | none =>
    let s2 : St := { s1 with log := s1.log ++ [Ev.storeFindEv, Ev.storeCountEv] }
    match listFromStore filter pag sort s2.store with
    | Except.error er => (Except.error er, s2)
    | Except.ok r =>
      (Except.ok r,
        { s2 with
          cache := cacheSet s2.cache key (CacheVal.list r)
          log := s2.log ++ [Ev.cacheSetEv key] })

/-- `EmployeeService.getEmployeeById`: per-id cache-aside read; a missing
record is returned as `none` and is not negative-cached. -/
def getEmployeeById (id : Nat) (s : St) : Except Err (Option Employee) × St :=
  let key := CacheKey.single id
  let s1 : St := { s with log := s.log ++ [Ev.cacheGetEv key] }
  match cacheGet s1.cache key with
  | some (CacheVal.single e) => (Except.ok (some e), s1)
  | some (CacheVal.list _) => (Except.error Err.storeError, s1)
  | none =>
    let s2 : St := { s1 with log := s1.log ++ [Ev.storeFindOneEv] }
    match s2.store.find? (fun e => e.id == id) with
    | some e =>
      (Except.ok (some e),
        { s2 with
          cache := cacheSet s2.cache key (CacheVal.single e)
          log := s2.log ++ [Ev.cacheSetEv key] })
    | none => (Except.ok none, s2)

structure CreateEmployeeInput where
  name : String
  email : String
  age : Int
  cls : String
  subjects : List String
  salary : Option Int := none
  department : Option String := none
  joiningDate : Option Nat := none
deriving DecidableEq, Repr

def padZeros (s : String) (w : Nat) : String :=
  String.mk (List.replicate (w - s.length) '0') ++ s

def freshId (store : List Employee) : Nat :=
  store.foldr (fun e m => max m (e.id + 1)) 1

/-- `EmployeeService.createEmployee`: duplicate-email check by exact
lookup over all records (active or not), then insert (with the pre-save
`EMP……` code from the current document count), then bulk eviction of the
list-cache namespace. -/
def createEmployee (input : CreateEmployeeInput) (createdBy : Nat) (now : Nat)
    (s : St) : Except Err Employee × St :=
  let s1 : St := { s with log := s.log ++ [Ev.storeFindOneEv] }
  match s1.store.find? (fun e => e.email == input.email) with
  | some _ => (Except.error Err.duplicateEmail, s1)
  | none =>
    let emp : Employee :=
      { id := freshId s1.store
        employeeId := "EMP" ++ padZeros (toString (s1.store.length + 1)) 6
        name := input.name
        email := input.email
        age := input.age
        cls := input.cls
        subjects := input.subjects
        attendance := []
        joiningDate := input.joiningDate.getD now
        salary := input.salary
        department := input.department
        isActive := true
        createdBy := createdBy
        createdAt := now }
    (Except.ok emp,
      { store := s1.store ++ [emp]
        cache := cacheDeletePattern s1.cache
        log := s1.log ++ [Ev.storeInsertEv, Ev.cacheDeletePatternEv] })

structure UpdateEmployeeInput where
  name : Option String := none
  email : Option String := none
  age : Option Int := none
  cls : Option String := none
  subjects : Option (List String) := none
  salary : Option Int := none
  department : Option String := none
  isActive : Option Bool := none
deriving DecidableEq, Repr

/-- The keys present in an `UpdateEmployeeInput` object, as
`Object.keys(input)` would list them. -/
def updateKeys (i : UpdateEmployeeInput) : List String :=
  (if i.name.isSome then ["name"] else []) ++
  (if i.email.isSome then ["email"] else []) ++
  (if i.age.isSome then ["age"] else []) ++
  (if i.cls.isSome then ["class"] else []) ++
  (if i.subjects.isSome then ["subjects"] else []) ++
  (if i.salary.isSome then ["salary"] else []) ++
  (if i.department.isSome then ["department"] else []) ++
  (if i.isActive.isSome then ["isActive"] else [])

/-- The `$set` patch applied by `findByIdAndUpdate`. -/
def applySet (i : UpdateEmployeeInput) (e : Employee) : Employee :=
  { e with
    name := i.name.getD e.name
    email := i.email.getD e.email
    age := i.age.getD e.age
    cls := i.cls.getD e.cls
    subjects := i.subjects.getD e.subjects
    salary := match i.salary with
      | some v => some v
      | none => e.salary
    department := match i.department with
      | some v => some v
      | none => e.department
    isActive := i.isActive.getD e.isActive }

def replaceById (id : Nat) (f : Employee → Employee) (store : List Employee) : List Employee :=
  store.map (fun e => if e.id == id then f e else e)

/-- Whether the requested email (when present) belongs to a record other
than `id` — the condition under which `updateEmployee` raises the
duplicate-email error. -/
def dupEmailCond (input : UpdateEmployeeInput) (id : Nat) (store : List Employee) : Bool :=
  match input.email with
  | none => false
  | some em => store.any (fun e => e.email == em && !(e.id == id))

/-- `EmployeeService.updateEmployee`: duplicate check excluding the
record itself (only when an email is supplied), `$set` update returning
the new document, and, on success, eviction of the per-id key plus the
whole list namespace.  A missing id yields `none` (mapped to NotFound by
the resolver) with no eviction. -/
def updateEmployee (id : Nat) (input : UpdateEmployeeInput) (s : St) :
    Except Err (Option Employee) × St :=
  let log1 := if input.email.isSome then s.log ++ [Ev.storeFindOneEv] else s.log
  if dupEmailCond input id s.store then (Except.error Err.duplicateEmail, { s with log := log1 })
  else
    let log2 := log1 ++ [Ev.storeUpdateEv id]
    match s.store.find? (fun e => e.id == id) with
    | none => (Except.ok none, { s with log := log2 })
    | some e =>
      (Except.ok (some (applySet input e)),
        { store := replaceById id (applySet input) s.store
          cache := cacheDeletePattern (cacheDelete s.cache (CacheKey.single id))
          log := log2 ++ [Ev.cacheDeleteEv (CacheKey.single id), Ev.cacheDeletePatternEv] })

/-- `EmployeeService.deleteEmployee`: soft delete (`$set { isActive:
false }`); on success evicts the per-id key and the list namespace. -/
def deleteEmployee (id : Nat) (s : St) : Except Err Bool × St :=
  let s1 : St := { s with log := s.log ++ [Ev.storeUpdateEv id] }
  match s1.store.find? (fun e => e.id == id) with
  | none => (Except.ok false, s1)
  | some _ =>
    (Except.ok true,
      { store := replaceById id (fun e => { e with isActive := false }) s1.store
        cache := cacheDeletePattern (cacheDelete s1.cache (CacheKey.single id))
        log := s1.log ++ [Ev.cacheDeleteEv (CacheKey.single id), Ev.cacheDeletePatternEv] })

/-- MongoDB `$text` search over the text index on name and email,
modelled as a token substring test. -/
def textMatches (q : String) (e : Employee) : Bool :=
  (q.splitOn " ").any (fun t => strContainsCI e.name t || strContainsCI e.email t)

/-- `EmployeeService.searchEmployees`: active-only text search with the
same pagination envelope as `getEmployees`; no cache involvement.  The
text-score ordering is a permutation of the matches and is not modelled
further. -/
def searchFromStore (q : String) (pag : PaginationInput) (store : List Employee) :
    Except Err EmployeeConnection :=
  let skip := (pag.page - 1) * pag.limit
  if skip < 0 then Except.error Err.storeError
  else
    let matching := store.filter (fun e => textMatches q e && e.isActive)
    let total := matching.length
    Except.ok
      { data := limitTake pag.limit (matching.drop skip.toNat)
        pagination :=
          { total := total
            page := pag.page
            limit := pag.limit
            pages := pagesOf total pag.limit
            hasNextPage := decide (pag.page < pagesOf total pag.limit)
            hasPrevPage := decide (1 < pag.page) } }

def searchEmployees (q : String) (pag : PaginationInput) (s : St) :
    Except Err EmployeeConnection × St :=
  (searchFromStore q pag s.store,
    { s with log := s.log ++ [Ev.storeFindEv, Ev.storeCountEv] })

/-- `EmployeeService.markAttendance`: `$push` onto the attendance array;
on success evicts only the per-id cache key (the list namespace is left
untouched by this operation in the source). -/
def markAttendance (employeeId : Nat) (att : AttendanceEntry) (s : St) :
    Except Err (Option Employee) × St :=
  let s1 : St := { s with log := s.log ++ [Ev.storeUpdateEv employeeId] }
  match s1.store.find? (fun e => e.id == employeeId) with
  | none => (Except.ok none, s1)
  | some e =>
    let upd : Employee → Employee := fun x => { x with attendance := x.attendance ++ [att] }
    (Except.ok (some (upd e)),
      { store := replaceById employeeId upd s1.store
        cache := cacheDelete s1.cache (CacheKey.single employeeId)
        log := s1.log ++ [Ev.cacheDeleteEv (CacheKey.single employeeId)] })

/-- `EmployeeService.bulkUpdateEmployees`: `updateMany` with `$set`, then
eviction of every affected per-id key and the list namespace, then a
re-fetch of the affected documents. -/
def bulkUpdateEmployees (ids : List Nat) (input : UpdateEmployeeInput) (s : St) :
    Except Err (List Employee) × St :=
  let store2 := s.store.map (fun e => if ids.contains e.id then applySet input e else e)
  let cache2 := cacheDeletePattern (ids.foldl (fun c i => cacheDelete c (CacheKey.single i)) s.cache)
  (Except.ok (store2.filter (fun e => ids.contains e.id)),
    { store := store2
      cache := cache2
      log := s.log ++ [Ev.storeUpdateEv 0]
        ++ ids.map (fun i => Ev.cacheDeleteEv (CacheKey.single i))
        ++ [Ev.cacheDeletePatternEv, Ev.storeFindEv] })

/-! ### Statistics aggregator -/

def allAttendance (store : List Employee) : List AttendanceEntry :=
  store.foldr (fun e acc => e.attendance ++ acc) []

def distinctDepts : List Employee → List (Option String)
  | [] => []
  | e :: rest =>
    let ds := distinctDepts rest
    if ds.contains e.department then ds else e.department :: ds

structure DepartmentCount where
  department : String
  count : Nat
deriving DecidableEq, Repr

structure EmployeeStats where
  totalEmployees : Nat
  activeEmployees : Nat
  inactiveEmployees : Nat
  averageAge : Rat
  departmentCounts : List DepartmentCount
  averageAttendanceRate : Rat
deriving DecidableEq, Repr

/-- The `$group`-by-department aggregation over active records followed
by the `filter(d => d.department)` projection, which drops the group of
records with no department value (and a JS-falsy empty string). -/
def departmentCountsOf (store : List Employee) : List DepartmentCount :=
  let actives := store.filter (fun e => e.isActive)
  (distinctDepts actives).filterMap (fun d =>
    match d with
    | none => none
    | some name =>
      if name = "" then none
      else some { department := name
                  count := (actives.filter (fun e => e.department == some name)).length })

/-- `EmployeeService.getEmployeeStats`: total/active/inactive counts,
average age over all records (0 for an empty roster), per-department
active counts, and the roster-wide attendance rate (0 when no attendance
entries exist anywhere). -/
def getEmployeeStats (s : St) : EmployeeStats × St :=
  let total := s.store.length
  let att := allAttendance s.store
  let presentDays := (att.filter (fun a => a.status == AttStatus.present)).length
  ({ totalEmployees := total
     activeEmployees := (s.store.filter (fun e => e.isActive)).length
     inactiveEmployees := (s.store.filter (fun e => !e.isActive)).length
     averageAge :=
       if total = 0 then 0
       else (s.store.foldr (fun e acc => (e.age : Rat) + acc) 0) / (total : Rat)
     departmentCounts := departmentCountsOf s.store
     averageAttendanceRate :=
       if att.length = 0 then 0
       else ((presentDays : Rat) / (att.length : Rat)) * 100 },
   { s with log := s.log ++ [Ev.storeCountEv, Ev.storeAggregateEv] })

/-! ### Resolver layer (authorization guard) -/

inductive Role
  | admin
  | employee
deriving DecidableEq, Repr

structure AuthUser where
  id : Nat
  email : String
  role : Role
  employeeRef : Option Nat
deriving DecidableEq, Repr

def Context := Option AuthUser

/-- The `employees` query resolver.  For a member-role caller with a
back-reference the filter object is replaced by `{ _id: employeeRef }`
(carried in the filter's `idEq` key, which `getEmployees` then never
reads); with no back-reference the caller's own filter is passed through
unchanged. -/
def resolverEmployees (ctx : Context) (filter : EmployeeFilter) (pag : PaginationInput)
    (sort : SortSpec) (s : St) : Except Err EmployeeConnection × St :=
  match ctx with
  | none => (Except.error Err.unauthenticated, s)
  | some u =>
    let queryFilter :=
      if u.role = Role.employee then
        match u.employeeRef with
        | some r => { emptyFilter with idEq := some r }
        | none => filter
      else filter
    getEmployees queryFilter pag sort s

/-- The `employee` query resolver: ownership check for member-role
callers (an absent back-reference can never equal the requested id, so it
is rejected), then the cache-aside single fetch with NotFound mapping. -/
def resolverEmployee (ctx : Context) (id : Nat) (s : St) : Except Err Employee × St :=
  match ctx with
  | none => (Except.error Err.unauthenticated, s)
  | some u =>
    if u.role = Role.employee && !(u.employeeRef == some id) then
      (Except.error (Err.forbidden "Not authorized to view this employee"), s)
    else
      match getEmployeeById id s with
      | (Except.ok (some e), s1) => (Except.ok e, s1)
      | (Except.ok none, s1) => (Except.error Err.notFound, s1)
      | (Except.error er, s1) => (Except.error er, s1)

/-- The fixed allow-list of fields a member may update. -/
def allowedFields : List String := ["subjects", "class"]

def restrictedFields (input : UpdateEmployeeInput) : List String :=
  (updateKeys input).filter (fun k => !(allowedFields.contains k))

/-- The `updateEmployee` mutation resolver: authentication, ownership
for members, the field allow-list for members (rejected with a message
naming the allowed fields), then the service update with NotFound
mapping. -/
def resolverUpdateEmployee (ctx : Context) (id : Nat) (input : UpdateEmployeeInput)
    (s : St) : Except Err Employee × St :=
  match ctx with
  | none => (Except.error Err.unauthenticated, s)
  | some u =>
    if u.role = Role.employee then
      if !(u.employeeRef == some id) then
        (Except.error (Err.forbidden "Not authorized"), s)
      else if !(restrictedFields input).isEmpty then
        (Except.error (Err.forbidden "Employees can only update: subjects, class"), s)
      else
        match updateEmployee id input s with
        | (Except.ok (some e), s1) => (Except.ok e, s1)
        | (Except.ok none, s1) => (Except.error Err.notFound, s1)
        | (Except.error er, s1) => (Except.error er, s1)
    else
      match updateEmployee id input s with
      | (Except.ok (some e), s1) => (Except.ok e, s1)
      | (Except.ok none, s1) => (Except.error Err.notFound, s1)
      | (Except.error er, s1) => (Except.error er, s1)

/-- The `markAttendance` mutation resolver: admins may mark for anyone,
members only for themselves (an absent back-reference is rejected). -/
def resolverMarkAttendance (ctx : Context) (employeeId : Nat) (att : AttendanceEntry)
    (s : St) : Except Err Employee × St :=
  match ctx with
  | none => (Except.error Err.unauthenticated, s)
  | some u =>
    if u.role = Role.employee && !(u.employeeRef == some employeeId) then
      (Except.error (Err.forbidden "Not authorized"), s)
    else
      match markAttendance employeeId att s with
      | (Except.ok (some e), s1) => (Except.ok e, s1)
      | (Except.ok none, s1) => (Except.error Err.notFound, s1)
      | (Except.error er, s1) => (Except.error er, s1)

/-- The `createEmployee` mutation resolver (admin only). -/
def resolverCreateEmployee (ctx : Context) (input : CreateEmployeeInput) (now : Nat)
    (s : St) : Except Err Employee × St :=
  match ctx with
  | some u =>
    if u.role = Role.admin then createEmployee input u.id now s
    else (Except.error (Err.forbidden "Admin access required"), s)
  | none => (Except.error (Err.forbidden "Admin access required"), s)

/-- The `deleteEmployee` mutation resolver (admin only, NotFound when the
service reports no match). -/
def resolverDeleteEmployee (ctx : Context) (id : Nat) (s : St) : Except Err Bool × St :=
  match ctx with
  | some u =>
    if u.role = Role.admin then
      match deleteEmployee id s with
      | (Except.ok true, s1) => (Except.ok true, s1)
      | (Except.ok false, s1) => (Except.error Err.notFound, s1)
      | (Except.error er, s1) => (Except.error er, s1)
    else (Except.error (Err.forbidden "Admin access required"), s)
  | none => (Except.error (Err.forbidden "Admin access required"), s)

/-! ### Predicates used by the specification statements -/

/-- Whether the cache holds any entry in the `employees:*` list
namespace. -/
def hasListEntry (c : CacheState) : Bool :=
  c.entries.any (fun p => isListKey p.1)

/-- Whether the cache holds an entry under the given key. -/
def hasKeyEntry (c : CacheState) (k : CacheKey) : Bool :=
  c.entries.any (fun p => p.1 == k)

/-- The pagination-envelope invariant of the specification:
`pages = ceil(total/limit)` (mathematical ceiling over the rationals),
the two derived booleans, and their boundary consequences. -/
def pagInv (p : PaginationInfo) : Prop :=
  p.pages = ⌈(p.total : ℚ) / (p.limit : ℚ)⌉ ∧
  (p.hasNextPage = true ↔ p.page < p.pages) ∧
  (p.hasPrevPage = true ↔ 1 < p.page) ∧
  (p.page = p.pages → p.hasNextPage = false) ∧
  (p.page = 1 → p.hasPrevPage = false)

/-- Executable form of the envelope invariant, phrased against the
service's own `pagesOf` computation; `pagInvB_imp` relates it to
`pagInv`. -/
def pagInvB (p : PaginationInfo) : Bool :=
  decide (1 ≤ p.limit) && (p.pages == pagesOf p.total p.limit) &&
  (p.hasNextPage == decide (p.page < p.pages)) &&
  (p.hasPrevPage == decide (1 < p.page))

/-- Well-formedness of a cache state: every stored list envelope was
produced by the service from a valid page spec, hence satisfies the
executable envelope invariant.  All cache states reachable through the
service satisfy this. -/
def wfCacheB (c : CacheState) : Bool :=
  c.entries.all (fun q =>
    match q.2 with
    | CacheVal.list r => pagInvB r.pagination
    | CacheVal.single _ => true)

/-- Every successfully returned envelope satisfies the pagination
invariant. -/
def envOk (x : Except Err EmployeeConnection) : Prop :=
  ∀ r, x = Except.ok r → pagInv r.pagination

/-- Evaluates a boolean property on the envelope of a successful result
(vacuously true on errors). -/
def onOk (x : Except Err EmployeeConnection) (p : EmployeeConnection → Bool) : Bool :=
  match x with
  | Except.ok r => p r
  | Except.error _ => true

/-- Direct single-record store read (the reference behaviour the cache
layer must degrade to). -/
def findFromStore (id : Nat) (store : List Employee) : Option Employee :=
  store.find? (fun e => e.id == id)

/-- Total number of attendance entries across all records (the
specification's formulation, summed record by record). -/
def totalAttendanceCount (store : List Employee) : Nat :=
  store.foldr (fun e acc => e.attendance.length + acc) 0

/-- Total number of `present` attendance entries across all records. -/
def presentAttendanceCount (store : List Employee) : Nat :=
  store.foldr
    (fun e acc => (e.attendance.filter (fun a => a.status == AttStatus.present)).length + acc) 0

/-- Whether a list result is the ValidationError rejection. -/
def isValidationError : Except Err EmployeeConnection → Bool
  | Except.error Err.validationError => true
  | _ => false

/-- Whether a list result completed successfully. -/
def isOkResult : Except Err EmployeeConnection → Bool
  | Except.ok _ => true
  | _ => false

/-- Whether a single-record mutation completed successfully with a
matched record. -/
def isOkSomeEmp : Except Err (Option Employee) → Bool
  | Except.ok (some _) => true
  | _ => false

/-! ### Sample data used by concrete instantiations -/

def cacheUp : CacheState := { connected := true, failing := false, entries := [] }

def empA : Employee :=
  { id := 1, employeeId := "EMP000001", name := "Jane Smith", email := "jane@x.com"
    age := 28, cls := "Grade 10", subjects := ["Math"]
    attendance := [{ date := 1, status := AttStatus.present, remarks := none },
                   { date := 2, status := AttStatus.absent, remarks := none }]
    joiningDate := 0, salary := none, department := some "Eng"
    isActive := true, createdBy := 0, createdAt := 10 }

def empB : Employee :=
  { id := 2, employeeId := "EMP000002", name := "Bob Stone", email := "bob@x.com"
    age := 40, cls := "Grade 11", subjects := ["Art"]
    attendance := [], joiningDate := 0, salary := none, department := none
    isActive := false, createdBy := 0, createdAt := 11 }

def empC : Employee :=
  { id := 3, employeeId := "EMP000003", name := "Cara Lake", email := "cara@x.com"
    age := 35, cls := "Grade 12", subjects := ["Sci"]
    attendance := [], joiningDate := 0, salary := none, department := none
    isActive := true, createdBy := 0, createdAt := 12 }

def attNew : AttendanceEntry := { date := 3, status := AttStatus.present, remarks := none }

/-- A list envelope as the service would have cached it for the default
query over a one-record roster. -/
def sampleCachedList : EmployeeConnection :=
  { data := [empA]
    pagination :=
      { total := 1, page := 1, limit := 10, pages := 1
        hasNextPage := false, hasPrevPage := false } }

/-- A recognisably stale list envelope (impossible total 99) planted
under the default list key. -/
def staleCachedList : EmployeeConnection :=
  { data := []
    pagination :=
      { total := 99, page := 1, limit := 10, pages := 0
        hasNextPage := false, hasPrevPage := false } }

def cacheWithListAndSingle : CacheState :=
  { connected := true, failing := false
    entries := [(listKey emptyFilter defaultPagination defaultSort,
                 CacheVal.list sampleCachedList),
                (CacheKey.single 1, CacheVal.single empA)] }

def cacheWithStale : CacheState :=
  { connected := true, failing := false
    entries := [(listKey emptyFilter defaultPagination defaultSort,
                 CacheVal.list staleCachedList)] }

def cacheWithSingle : CacheState :=
  { connected := true, failing := false
    entries := [(CacheKey.single 1, CacheVal.single empA)] }

/-! ### Helper lemmas -/

theorem mem_insertLe (le : Employee → Employee → Bool) (e a : Employee) (l : List Employee) :
    a ∈ insertLe le e l ↔ a = e ∨ a ∈ l := by
  induction l with
  | nil => simp [insertLe]
  | cons x xs ih =>
    by_cases h : le e x = true
    · simp [insertLe, h]
    · simp only [insertLe, if_neg h, List.mem_cons, ih]
      tauto

theorem mem_sortByLe (le : Employee → Employee → Bool) (a : Employee) (l : List Employee) :
    a ∈ sortByLe le l ↔ a ∈ l := by
  induction l with
  | nil => simp [sortByLe]
  | cons x xs ih => simp [sortByLe, mem_insertLe, ih]

theorem mem_sortEmployees (sort : SortSpec) (a : Employee) (l : List Employee) :
    a ∈ sortEmployees sort l ↔ a ∈ l := by
  unfold sortEmployees
  cases sort.order <;> simp [mem_sortByLe]

theorem length_filter_not_eq_sub (p : Employee → Bool) (l : List Employee) :
    (l.filter (fun e => !p e)).length = l.length - (l.filter p).length := by
  induction l with
  | nil => rfl
  | cons x xs ih =>
    have hle : (xs.filter p).length ≤ xs.length := List.length_filter_le _ _
    by_cases h : p x = true <;>
      simp [List.filter_cons, h, ih] <;> omega

theorem natCeilDiv_eq_ceil (n m : ℕ) (hm : 0 < m) :
    (((n + m - 1) / m : ℕ) : ℤ) = ⌈(n : ℚ) / (m : ℚ)⌉ := by
  have hdm := Nat.div_add_mod (n + m - 1) m
  have hmod : (n + m - 1) % m < m := Nat.mod_lt _ hm
  have key : ∀ w, w + (n + m - 1) % m = n + m - 1 → n ≤ w ∧ w < n + m := by
    intro w hw
    omega
  obtain ⟨h1, h2⟩ := key (m * ((n + m - 1) / m)) hdm
  have hmQ : (0 : ℚ) < m := by exact_mod_cast hm
  set z := (n + m - 1) / m with hzdef
  have hzc : (((z : ℕ) : ℤ) : ℚ) = (z : ℚ) := by norm_cast
  rw [eq_comm, Int.ceil_eq_iff]
  constructor
  · rw [hzc, lt_div_iff₀ hmQ]
    have hc : (m : ℚ) * (z : ℚ) < (n : ℚ) + m := by exact_mod_cast h2
    have e1 : ((z : ℚ) - 1) * m = m * z - m := by ring
    rw [e1]
    linarith [hc]
  · rw [hzc, div_le_iff₀ hmQ]
    have hc : (n : ℚ) ≤ (m : ℚ) * (z : ℚ) := by exact_mod_cast h1
    rw [mul_comm]
    exact hc

theorem pagesOf_eq_ceil (total : Nat) (limit : Int) (h : 1 ≤ limit) :
    pagesOf total limit = ⌈(total : ℚ) / (limit : ℚ)⌉ := by
  unfold pagesOf
  rw [if_pos (by omega : (0 : Int) < limit)]
  have hm : 0 < limit.toNat := by omega
  have hcast : ((limit.toNat : ℕ) : ℚ) = (limit : ℚ) := by
    have : ((limit.toNat : ℕ) : ℤ) = limit := Int.toNat_of_nonneg (by omega)
    exact_mod_cast this
  calc (Int.ofNat ((total + limit.toNat - 1) / limit.toNat))
      = ⌈(total : ℚ) / (limit.toNat : ℚ)⌉ := natCeilDiv_eq_ceil total limit.toNat hm
    _ = ⌈(total : ℚ) / (limit : ℚ)⌉ := by rw [hcast]

theorem pagInvB_imp (p : PaginationInfo) (h : pagInvB p = true) : pagInv p := by
  unfold pagInvB at h
  simp only [Bool.and_eq_true, beq_iff_eq, decide_eq_true_eq] at h
  obtain ⟨⟨⟨hlim, hpages⟩, hnext⟩, hprev⟩ := h
  refine ⟨?_, ?_, ?_, ?_, ?_⟩
  · rw [hpages]
    exact pagesOf_eq_ceil _ _ hlim
  · rw [hnext]
    simp
  · rw [hprev]
    simp
  · intro hpp
    rw [hnext, hpp]
    simp
  · intro hp1
    rw [hprev, hp1]
    simp

theorem cacheGet_of_down (c : CacheState) (k : CacheKey)
    (h : c.connected = false ∨ c.failing = true) : cacheGet c k = none := by
  rcases h with h | h
  · unfold cacheGet
    rw [h]
    simp
  · unfold cacheGet redisGet
    rw [h]
    simp

theorem cacheSet_of_down (c : CacheState) (k : CacheKey) (v : CacheVal)
    (h : c.connected = false ∨ c.failing = true) : cacheSet c k v = c := by
  rcases h with h | h
  · unfold cacheSet
    rw [h]
    simp
  · unfold cacheSet
    rw [h]
    simp

theorem cacheDelete_of_down (c : CacheState) (k : CacheKey)
    (h : c.connected = false ∨ c.failing = true) : cacheDelete c k = c := by
  rcases h with h | h
  · unfold cacheDelete
    rw [h]
    simp
  · unfold cacheDelete
    rw [h]
    simp

theorem cacheDeletePattern_of_down (c : CacheState)
    (h : c.connected = false ∨ c.failing = true) : cacheDeletePattern c = c := by
  rcases h with h | h
  · unfold cacheDeletePattern
    rw [h]
    simp
  · unfold cacheDeletePattern
    rw [h]
    simp

theorem cacheDelete_connected (c : CacheState) (k : CacheKey) :
    (cacheDelete c k).connected = c.connected ∧ (cacheDelete c k).failing = c.failing := by
  unfold cacheDelete
  split
  · exact ⟨rfl, rfl⟩
  · split
    · exact ⟨rfl, rfl⟩
    · exact ⟨rfl, rfl⟩

theorem hasListEntry_deletePattern (c : CacheState)
    (hc : c.connected = true) (hf : c.failing = false) :
    hasListEntry (cacheDeletePattern c) = false := by
  unfold hasListEntry cacheDeletePattern
  simp only [hc, hf, Bool.not_true, Bool.false_eq_true, if_false, if_true]
  rw [List.any_eq_false]
  intro p hp
  have h2 := (List.mem_filter.mp hp).2
  simp at h2 ⊢
  exact h2

theorem hasKeyEntry_delete_self (c : CacheState) (k : CacheKey)
    (hc : c.connected = true) (hf : c.failing = false) :
    hasKeyEntry (cacheDelete c k) k = false := by
  unfold hasKeyEntry cacheDelete
  simp only [hc, hf, Bool.not_true, Bool.false_eq_true, if_false, if_true]
  rw [List.any_eq_false]
  intro p hp
  have h2 := (List.mem_filter.mp hp).2
  simp at h2 ⊢
  exact h2

theorem hasKeyEntry_deletePattern_mono (c : CacheState) (k : CacheKey)
    (h : hasKeyEntry c k = false) : hasKeyEntry (cacheDeletePattern c) k = false := by
  unfold hasKeyEntry at *
  rw [List.any_eq_false] at h
  unfold cacheDeletePattern
  split
  · rw [List.any_eq_false]
    exact h
  · split
    · rw [List.any_eq_false]
      exact h
    · rw [List.any_eq_false]
      intro p hp
      exact h p (List.mem_filter.mp hp).1

theorem hasKeyEntry_delete_mono (c : CacheState) (k k2 : CacheKey)
    (h : hasKeyEntry c k = false) : hasKeyEntry (cacheDelete c k2) k = false := by
  unfold hasKeyEntry at *
  rw [List.any_eq_false] at h
  unfold cacheDelete
  split
  · rw [List.any_eq_false]
    exact h
  · split
    · rw [List.any_eq_false]
      exact h
    · rw [List.any_eq_false]
      intro p hp
      exact h p (List.mem_filter.mp hp).1

theorem cacheGet_mem (c : CacheState) (k : CacheKey) (v : CacheVal)
    (h : cacheGet c k = some v) : ∃ p ∈ c.entries, p.2 = v := by
  unfold cacheGet redisGet at h
  split_ifs at h with h1 h2
  simp only [Option.map_eq_some'] at h
  obtain ⟨a, hp, hv⟩ := h
  exact ⟨a, List.mem_of_find?_eq_some hp, hv⟩

theorem getEmployees_result (filter : EmployeeFilter) (pag : PaginationInput)
    (sort : SortSpec) (s : St) :
    (getEmployees filter pag sort s).1 =
      match cacheGet s.cache (listKey filter pag sort) with
      | some (CacheVal.list r) => Except.ok r
      | some (CacheVal.single _) => Except.error Err.storeError
      | none => listFromStore filter pag sort s.store := by
  dsimp only [getEmployees]
  cases cacheGet s.cache (listKey filter pag sort) with
  | none =>
    cases hl : listFromStore filter pag sort s.store with
    | ok r => simp [hl]
    | error er => simp [hl]
  | some v => cases v <;> simp

theorem listFromStore_pagInvB (filter : EmployeeFilter) (pag : PaginationInput)
    (sort : SortSpec) (store : List Employee) (r : EmployeeConnection)
    (h : listFromStore filter pag sort store = Except.ok r) (hlim : 1 ≤ pag.limit) :
    pagInvB r.pagination = true := by
  dsimp only [listFromStore] at h
  split_ifs at h with h1
  simp only [Except.ok.injEq] at h
  subst h
  simp [pagInvB, hlim]

theorem searchFromStore_pagInvB (q : String) (pag : PaginationInput)
    (store : List Employee) (r : EmployeeConnection)
    (h : searchFromStore q pag store = Except.ok r) (hlim : 1 ≤ pag.limit) :
    pagInvB r.pagination = true := by
  dsimp only [searchFromStore] at h
  split_ifs at h with h1
  simp only [Except.ok.injEq] at h
  subst h
  simp [pagInvB, hlim]

theorem cacheGet_list_wf (c : CacheState) (k : CacheKey) (r : EmployeeConnection)
    (hwf : wfCacheB c = true) (h : cacheGet c k = some (CacheVal.list r)) :
    pagInvB r.pagination = true := by
  obtain ⟨p, hmem, hv⟩ := cacheGet_mem c k _ h
  unfold wfCacheB at hwf
  rw [List.all_eq_true] at hwf
  have := hwf p hmem
  rw [hv] at this
  exact this

/-- C4: every page envelope returned by listRecords (`getEmployees`) and
searchRecords (`searchEmployees`) satisfies `pages = ceil(total/limit)`,
`hasNextPage = (page < pages)` and `hasPrevPage = (page > 1)`; in
particular `page = pages` implies no next page and `page = 1` implies no
previous page.  Valid page specs have `limit ≥ 1`, and the cache is
well-formed (it only holds envelopes the service previously computed). -/
theorem C4_envelope_invariant (filter : EmployeeFilter) (q : String)
    (pag : PaginationInput) (sort : SortSpec) (s : St)
    (hlim : 1 ≤ pag.limit) (hwf : wfCacheB s.cache = true) :
    envOk (getEmployees filter pag sort s).1 ∧ envOk (searchEmployees q pag s).1 := by
  constructor
  · intro r h
    rw [getEmployees_result] at h
    cases hget : cacheGet s.cache (listKey filter pag sort) with
    | none =>
      rw [hget] at h
      exact pagInvB_imp _ (listFromStore_pagInvB filter pag sort s.store r h hlim)
    | some v =>
      cases v with
      | list r2 =>
        rw [hget] at h
        simp only [Except.ok.injEq] at h
        subst h
        exact pagInvB_imp _ (cacheGet_list_wf s.cache _ _ hwf hget)
      | single e =>
        rw [hget] at h
        exact absurd h (by simp)
  · intro r h
    have h2 : searchFromStore q pag s.store = Except.ok r := h
    exact pagInvB_imp _ (searchFromStore_pagInvB q pag s.store r h2 hlim)

/-- Witness for C4: the invariant instantiated on the envelope actually
returned by `getEmployees` for an empty roster with page 1, limit 2. -/
theorem C4_envelope_invariant_witness :
    pagInv { total := 0, page := 1, limit := 2, pages := 0,
             hasNextPage := false, hasPrevPage := false } := by
  have h := C4_envelope_invariant emptyFilter "x" { page := 1, limit := 2 } defaultSort
    { store := [], cache := { connected := true, failing := false, entries := [] }, log := [] }
    (by decide) (by decide)
  exact h.1
    { data := []
      pagination := { total := 0, page := 1, limit := 2, pages := 0,
                      hasNextPage := false, hasPrevPage := false } } rfl

theorem allAttendance_length (store : List Employee) :
    (allAttendance store).length = totalAttendanceCount store := by
  induction store with
  | nil => rfl
  | cons e rest ih =>
    simp [allAttendance, totalAttendanceCount] at *
    omega

theorem allAttendance_present (store : List Employee) :
    ((allAttendance store).filter (fun a => a.status == AttStatus.present)).length
      = presentAttendanceCount store := by
  induction store with
  | nil => rfl
  | cons e rest ih =>
    simp [allAttendance, presentAttendanceCount, List.filter_append] at *
    omega

theorem mem_distinctDepts (l : List Employee) (e : Employee) (he : e ∈ l) :
    e.department ∈ distinctDepts l := by
  induction l with
  | nil => cases he
  | cons x xs ih =>
    rcases List.mem_cons.mp he with rfl | hmem
    · by_cases hc : (distinctDepts xs).contains e.department
      · simp only [distinctDepts, if_pos hc]
        exact List.elem_iff.mp hc
      · simp only [distinctDepts, if_neg hc]
        exact List.mem_cons_self _ _
    · by_cases hc : (distinctDepts xs).contains x.department
      · simp only [distinctDepts, if_pos hc]
        exact ih hmem
      · simp only [distinctDepts, if_neg hc]
        exact List.mem_cons_of_mem _ (ih hmem)

/-- C9: getStats reports inactive = total − active; an overall attendance
rate equal to present entries over all records divided by all attendance
entries times 100, exactly 0 when no attendance entries exist anywhere;
and a per-department active-record breakdown that excludes records with
no department value (each reported department is non-empty and counts
exactly the active records of that department, and every active record
with a department value is represented). -/
theorem C9_stats_shape (s : St) :
    ((getEmployeeStats s).1.inactiveEmployees
        = (getEmployeeStats s).1.totalEmployees - (getEmployeeStats s).1.activeEmployees) ∧
    ((getEmployeeStats s).1.averageAttendanceRate
        = if totalAttendanceCount s.store = 0 then 0
          else (presentAttendanceCount s.store : Rat)
               / (totalAttendanceCount s.store : Rat) * 100) ∧
    (∀ dc ∈ (getEmployeeStats s).1.departmentCounts,
        dc.department ≠ "" ∧
        dc.count = ((s.store.filter (fun e => e.isActive)).filter
            (fun e => e.department == some dc.department)).length) ∧
    (∀ e ∈ s.store, e.isActive = true → ∀ d, e.department = some d → d ≠ "" →
        ∃ dc ∈ (getEmployeeStats s).1.departmentCounts, dc.department = d) := by
  refine ⟨?_, ?_, ?_, ?_⟩
  · dsimp only [getEmployeeStats]
    exact length_filter_not_eq_sub _ _
  · dsimp only [getEmployeeStats]
    rw [allAttendance_length, allAttendance_present]
  · intro dc hdc
    dsimp only [getEmployeeStats, departmentCountsOf] at hdc
    rw [List.mem_filterMap] at hdc
    obtain ⟨d, hd, hf⟩ := hdc
    cases d with
    | none => simp at hf
    | some name =>
      by_cases hne : name = ""
      · simp [hne] at hf
      · simp only [if_neg hne, Option.some.injEq] at hf
        subst hf
        exact ⟨hne, rfl⟩
  · intro e he hact d hdep hne
    have hmem : e ∈ s.store.filter (fun x => x.isActive) :=
      List.mem_filter.mpr ⟨he, by simp [hact]⟩
    have hdd := mem_distinctDepts _ e hmem
    rw [hdep] at hdd
    refine ⟨{ department := d
              count := ((s.store.filter (fun x => x.isActive)).filter
                (fun x => x.department == some d)).length }, ?_, rfl⟩
    dsimp only [getEmployeeStats, departmentCountsOf]
    rw [List.mem_filterMap]
    exact ⟨some d, hdd, by simp [hne]⟩

/-- Witness for C9 on a concrete two-record roster. -/
theorem C9_stats_shape_witness :
    ((getEmployeeStats { store := [empA, empB], cache := cacheUp, log := [] }).1.inactiveEmployees
      = (getEmployeeStats { store := [empA, empB], cache := cacheUp, log := [] }).1.totalEmployees
        - (getEmployeeStats { store := [empA, empB], cache := cacheUp, log := [] }).1.activeEmployees) ∧
    ∃ dc ∈ (getEmployeeStats
        { store := [empA, empB], cache := cacheUp, log := [] }).1.departmentCounts,
      dc.department = "Eng" := by
  constructor
  · exact (C9_stats_shape { store := [empA, empB], cache := cacheUp, log := [] }).1
  · exact (C9_stats_shape { store := [empA, empB], cache := cacheUp, log := [] }).2.2.2
      empA (by decide) (by decide) "Eng" (by decide) (by decide)

/-- C6: a create whose email equals the email of any existing record
(active or inactive — the duplicate lookup carries no active filter)
fails with the duplicate-key error before any insert: the store (hence
the record count) and the cache are left untouched. -/
theorem C6_create_duplicate (input : CreateEmployeeInput) (createdBy now : Nat) (s : St)
    (h : s.store.any (fun e => e.email == input.email) = true) :
    (createEmployee input createdBy now s).1 = Except.error Err.duplicateEmail ∧
    (createEmployee input createdBy now s).2.store = s.store ∧
    (createEmployee input createdBy now s).2.cache = s.cache := by
  obtain ⟨e, hfind⟩ : ∃ e, s.store.find? (fun x => x.email == input.email) = some e := by
    rw [List.any_eq_true] at h
    have hs : (s.store.find? (fun x => x.email == input.email)).isSome := by
      rw [List.find?_isSome]
      exact h
    exact Option.isSome_iff_exists.mp hs
  dsimp only [createEmployee]
  rw [hfind]
  exact ⟨rfl, rfl, rfl⟩

/-- Witness for C6: creating a second record with the existing email,
over a one-record roster. -/
theorem C6_create_duplicate_witness :
    (createEmployee
        { name := "Dup", email := "jane@x.com", age := 30, cls := "G", subjects := ["Math"] }
        0 5 { store := [empA], cache := cacheUp, log := [] }).1
      = Except.error Err.duplicateEmail ∧
    (createEmployee
        { name := "Dup", email := "jane@x.com", age := 30, cls := "G", subjects := ["Math"] }
        0 5 { store := [empA], cache := cacheUp, log := [] }).2.store = [empA] ∧
    (createEmployee
        { name := "Dup", email := "jane@x.com", age := 30, cls := "G", subjects := ["Math"] }
        0 5 { store := [empA], cache := cacheUp, log := [] }).2.cache = cacheUp :=
  C6_create_duplicate
    { name := "Dup", email := "jane@x.com", age := 30, cls := "G", subjects := ["Math"] }
    0 5 { store := [empA], cache := cacheUp, log := [] } (by decide)

/-- C10: updateRecord raises the duplicate-key error exactly when the
requested email belongs to a record other than the one being updated
(`dupEmailCond`); in particular an update that re-supplies the record's
own current email passes the check and succeeds with all requested
fields applied. -/
theorem C10_update_duplicate_iff (id : Nat) (input : UpdateEmployeeInput) (s : St) :
    ((updateEmployee id input s).1 = Except.error Err.duplicateEmail
        ↔ dupEmailCond input id s.store = true) ∧
    (∀ e, s.store.find? (fun x => x.id == id) = some e →
      input.email = some e.email →
      s.store.any (fun x => x.email == e.email && !(x.id == id)) = false →
      (updateEmployee id input s).1 = Except.ok (some (applySet input e))) := by
  constructor
  · by_cases hd : dupEmailCond input id s.store = true
    · dsimp only [updateEmployee]
      rw [if_pos hd]
      simp [hd]
    · dsimp only [updateEmployee]
      rw [if_neg hd]
      simp only [Bool.not_eq_true] at hd
      simp only [hd]
      cases hf : s.store.find? (fun e => e.id == id) with
      | none => simp
      | some e => simp
  · intro e hfind hemail hany
    have hd : dupEmailCond input id s.store = false := by
      unfold dupEmailCond
      rw [hemail]
      exact hany
    dsimp only [updateEmployee]
    rw [if_neg (by simp [hd]), hfind]

/-- Witness for C10: re-supplying the record's own email together with a
class change succeeds. -/
theorem C10_update_duplicate_iff_witness :
    (updateEmployee 1 { email := some "jane@x.com", cls := some "Grade 11" }
        { store := [empA], cache := cacheUp, log := [] }).1
      = Except.ok (some (applySet { email := some "jane@x.com", cls := some "Grade 11" } empA)) :=
  (C10_update_duplicate_iff 1 { email := some "jane@x.com", cls := some "Grade 11" }
      { store := [empA], cache := cacheUp, log := [] }).2
    empA (by decide) (by decide) (by decide)

/-- C5: a member-role update whose input contains any field outside the
allow-list (subjects, class) is rejected as Forbidden with a message
naming the allowed fields and the whole state (hence the target record)
is left unmodified; an admin-role caller is never field-restricted — the
resolver passes straight through to the service, and when the id exists
and no duplicate email blocks it, the update succeeds with every
requested field applied. -/
theorem C5_member_field_allowlist :
    (∀ (u : AuthUser) (id : Nat) (input : UpdateEmployeeInput) (s : St),
      u.role = Role.employee → u.employeeRef = some id →
      (restrictedFields input).isEmpty = false →
      resolverUpdateEmployee (some u) id input s
        = (Except.error (Err.forbidden "Employees can only update: subjects, class"), s)) ∧
    (∀ (u : AuthUser) (id : Nat) (input : UpdateEmployeeInput) (s : St),
      u.role = Role.admin →
      resolverUpdateEmployee (some u) id input s
        = (match updateEmployee id input s with
           | (Except.ok (some e), s1) => (Except.ok e, s1)
           | (Except.ok none, s1) => (Except.error Err.notFound, s1)
           | (Except.error er, s1) => (Except.error er, s1))) ∧
    (∀ (u : AuthUser) (id : Nat) (input : UpdateEmployeeInput) (s : St) (e : Employee),
      u.role = Role.admin →
      s.store.find? (fun x => x.id == id) = some e →
      dupEmailCond input id s.store = false →
      (resolverUpdateEmployee (some u) id input s).1 = Except.ok (applySet input e)) := by
  refine ⟨?_, ?_, ?_⟩
  · intro u id input s hrole href hres
    dsimp only [resolverUpdateEmployee]
    rw [if_pos hrole, href]
    simp [hres]
  · intro u id input s hrole
    dsimp only [resolverUpdateEmployee]
    rw [if_neg (by rw [hrole]; intro hcon; exact absurd hcon (by decide))]
  · intro u id input s e hrole hfind hdup
    dsimp only [resolverUpdateEmployee]
    rw [if_neg (by rw [hrole]; intro hcon; exact absurd hcon (by decide))]
    have hupd : updateEmployee id input s
        = (Except.ok (some (applySet input e)),
           { store := replaceById id (applySet input) s.store
             cache := cacheDeletePattern (cacheDelete s.cache (CacheKey.single id))
             log := (if input.email.isSome then s.log ++ [Ev.storeFindOneEv] else s.log)
               ++ [Ev.storeUpdateEv id]
               ++ [Ev.cacheDeleteEv (CacheKey.single id), Ev.cacheDeletePatternEv] }) := by
      dsimp only [updateEmployee]
      rw [if_neg (by simp [hdup]), hfind]
    rw [hupd]

/-- Witness for C5: a member with back-reference 1 sending a name change
is rejected with the allow-list message and an unchanged state, while an
admin applying the same input to the same roster succeeds. -/
theorem C5_member_field_allowlist_witness :
    (resolverUpdateEmployee
        (some { id := 9, email := "m@x.com", role := Role.employee, employeeRef := some 1 })
        1 { name := some "Zed" } { store := [empA], cache := cacheUp, log := [] }
      = (Except.error (Err.forbidden "Employees can only update: subjects, class"),
         { store := [empA], cache := cacheUp, log := [] })) ∧
    ((resolverUpdateEmployee
        (some { id := 7, email := "a@x.com", role := Role.admin, employeeRef := none })
        1 { name := some "Zed" } { store := [empA], cache := cacheUp, log := [] }).1
      = Except.ok (applySet { name := some "Zed" } empA)) := by
  constructor
  · exact (C5_member_field_allowlist).1
      { id := 9, email := "m@x.com", role := Role.employee, employeeRef := some 1 }
      1 { name := some "Zed" } { store := [empA], cache := cacheUp, log := [] }
      rfl rfl (by decide)
  · exact (C5_member_field_allowlist).2.2
      { id := 7, email := "a@x.com", role := Role.admin, employeeRef := none }
      1 { name := some "Zed" } { store := [empA], cache := cacheUp, log := [] }
      empA rfl (by decide) (by decide)

/-- C8: under either cache failure mode (disconnected, or a client that
raises on every call) each cache operation returns a benign default
(miss for get, no-op for set/delete/deletePattern) instead of
propagating the failure, and the cache-aside reads return exactly the
result of querying the store directly. -/
theorem C8_cache_degradation :
    (∀ (c : CacheState) (k : CacheKey) (v : CacheVal),
      c.connected = false ∨ c.failing = true →
      cacheGet c k = none ∧ cacheSet c k v = c ∧ cacheDelete c k = c ∧
      cacheDeletePattern c = c) ∧
    (∀ (filter : EmployeeFilter) (pag : PaginationInput) (sort : SortSpec) (s : St),
      s.cache.connected = false ∨ s.cache.failing = true →
      (getEmployees filter pag sort s).1 = listFromStore filter pag sort s.store) ∧
    (∀ (id : Nat) (s : St),
      s.cache.connected = false ∨ s.cache.failing = true →
      (getEmployeeById id s).1 = Except.ok (findFromStore id s.store)) := by
  refine ⟨?_, ?_, ?_⟩
  · intro c k v h
    exact ⟨cacheGet_of_down c k h, cacheSet_of_down c k v h, cacheDelete_of_down c k h,
      cacheDeletePattern_of_down c h⟩
  · intro filter pag sort s h
    rw [getEmployees_result, cacheGet_of_down _ _ h]
  · intro id s h
    dsimp only [getEmployeeById]
    rw [cacheGet_of_down _ _ h]
    unfold findFromStore
    cases hf : s.store.find? (fun e => e.id == id) with
    | none => simp [hf]
    | some e => simp [hf]

/-- Witness for C8: a disconnected cache over a one-record roster — the
list read still returns the store-computed envelope and the single read
returns the stored record. -/
theorem C8_cache_degradation_witness :
    ((getEmployees emptyFilter defaultPagination defaultSort
        { store := [empA], cache := { connected := false, failing := false, entries := [] },
          log := [] }).1
      = listFromStore emptyFilter defaultPagination defaultSort [empA]) ∧
    ((getEmployeeById 1
        { store := [empA], cache := { connected := false, failing := false, entries := [] },
          log := [] }).1
      = Except.ok (findFromStore 1 [empA])) := by
  constructor
  · exact (C8_cache_degradation).2.1 emptyFilter defaultPagination defaultSort
      { store := [empA], cache := { connected := false, failing := false, entries := [] },
        log := [] } (Or.inl rfl)
  · exact (C8_cache_degradation).2.2 1
      { store := [empA], cache := { connected := false, failing := false, entries := [] },
        log := [] } (Or.inl rfl)

/-- C3 (amended): listRecords performs no page/limit validation at all —
no input ever produces the ValidationError rejection, and every call
(including page < 1 or limit > the configured maximum page size)
consults the cache under the key built from the raw skip/limit values.
The configured maximum page size is not consulted anywhere on this
path. -/
theorem C3_amended_no_validation (filter : EmployeeFilter) (pag : PaginationInput)
    (sort : SortSpec) (s : St) :
    isValidationError (getEmployees filter pag sort s).1 = false ∧
    Ev.cacheGetEv (listKey filter pag sort) ∈ (getEmployees filter pag sort s).2.log := by
  constructor
  · rw [getEmployees_result]
    cases hget : cacheGet s.cache (listKey filter pag sort) with
    | none =>
      dsimp only [listFromStore]
      split_ifs with h1
      · rfl
      · rfl
    | some v =>
      cases v with
      | list r => rfl
      | single e => rfl
  · dsimp only [getEmployees]
    cases cacheGet s.cache (listKey filter pag sort) with
    | none =>
      cases listFromStore filter pag sort s.store with
      | error er => simp
      | ok r => simp
    | some v =>
      cases v with
      | list r => simp
      | single e => simp

/-- C3 counterexample: with one active record and an operational empty
cache, a limit of 101 (beyond the configured maximum of 100) is not
rejected — the call succeeds — and a page of 0 is likewise not rejected
with a ValidationError, and its run begins with a cache access. -/
theorem C3_counterexample :
    isValidationError (getEmployees emptyFilter { page := 1, limit := 101 } defaultSort
        { store := [empA], cache := cacheUp, log := [] }).1 = false ∧
    isOkResult (getEmployees emptyFilter { page := 1, limit := 101 } defaultSort
        { store := [empA], cache := cacheUp, log := [] }).1 = true ∧
    isValidationError (getEmployees emptyFilter { page := 0, limit := 10 } defaultSort
        { store := [empA], cache := cacheUp, log := [] }).1 = false ∧
    Ev.cacheGetEv (listKey emptyFilter { page := 0, limit := 10 } defaultSort)
      ∈ (getEmployees emptyFilter { page := 0, limit := 10 } defaultSort
          { store := [empA], cache := cacheUp, log := [] }).2.log := by
  refine ⟨rfl, rfl, rfl, ?_⟩
  decide

theorem foldlDelete_flags (ids : List Nat) (c : CacheState) :
    (ids.foldl (fun c2 i => cacheDelete c2 (CacheKey.single i)) c).connected = c.connected ∧
    (ids.foldl (fun c2 i => cacheDelete c2 (CacheKey.single i)) c).failing = c.failing := by
  induction ids generalizing c with
  | nil => exact ⟨rfl, rfl⟩
  | cons j rest ih =>
    have hstep := cacheDelete_connected c (CacheKey.single j)
    have hrec := ih (cacheDelete c (CacheKey.single j))
    exact ⟨hrec.1.trans hstep.1, hrec.2.trans hstep.2⟩

theorem foldlDelete_preserves_absent (ids : List Nat) (c : CacheState) (k : CacheKey)
    (h : hasKeyEntry c k = false) :
    hasKeyEntry (ids.foldl (fun c2 i => cacheDelete c2 (CacheKey.single i)) c) k = false := by
  induction ids generalizing c with
  | nil => exact h
  | cons j rest ih => exact ih _ (hasKeyEntry_delete_mono c k (CacheKey.single j) h)

theorem foldlDelete_absent (ids : List Nat) (c : CacheState) (i : Nat)
    (hin : i ∈ ids) (hc : c.connected = true) (hf : c.failing = false) :
    hasKeyEntry (ids.foldl (fun c2 j => cacheDelete c2 (CacheKey.single j)) c)
      (CacheKey.single i) = false := by
  induction ids generalizing c with
  | nil => cases hin
  | cons j rest ih =>
    have hstep := cacheDelete_connected c (CacheKey.single j)
    rcases List.mem_cons.mp hin with rfl | hmem
    · exact foldlDelete_preserves_absent rest _ _
        (hasKeyEntry_delete_self c (CacheKey.single i) hc hf)
    · exact ih (cacheDelete c (CacheKey.single j)) hmem (hstep.1.trans hc) (hstep.2.trans hf)

/-- C2 (amended): over an operational cache, create, update, soft delete
and bulk update leave no entry in the `employees:*` list namespace after
a successful store write, and update, soft delete and bulk update also
leave no per-id entry for the affected ids; markAttendance, by contrast,
evicts only the per-id entry of its target — the list namespace is not
touched by it (see the counterexample for the resulting staleness). -/
theorem C2_amended_invalidation :
    (∀ (input : CreateEmployeeInput) (createdBy now : Nat) (s : St) (e : Employee),
      s.cache.connected = true → s.cache.failing = false →
      (createEmployee input createdBy now s).1 = Except.ok e →
      hasListEntry (createEmployee input createdBy now s).2.cache = false) ∧
    (∀ (id : Nat) (input : UpdateEmployeeInput) (s : St) (e : Employee),
      s.cache.connected = true → s.cache.failing = false →
      (updateEmployee id input s).1 = Except.ok (some e) →
      hasListEntry (updateEmployee id input s).2.cache = false ∧
      hasKeyEntry (updateEmployee id input s).2.cache (CacheKey.single id) = false) ∧
    (∀ (id : Nat) (s : St),
      s.cache.connected = true → s.cache.failing = false →
      (deleteEmployee id s).1 = Except.ok true →
      hasListEntry (deleteEmployee id s).2.cache = false ∧
      hasKeyEntry (deleteEmployee id s).2.cache (CacheKey.single id) = false) ∧
    (∀ (ids : List Nat) (input : UpdateEmployeeInput) (s : St),
      s.cache.connected = true → s.cache.failing = false →
      hasListEntry (bulkUpdateEmployees ids input s).2.cache = false ∧
      ∀ i ∈ ids,
        hasKeyEntry (bulkUpdateEmployees ids input s).2.cache (CacheKey.single i) = false) ∧
    (∀ (id : Nat) (att : AttendanceEntry) (s : St) (e : Employee),
      s.cache.connected = true → s.cache.failing = false →
      (markAttendance id att s).1 = Except.ok (some e) →
      hasKeyEntry (markAttendance id att s).2.cache (CacheKey.single id) = false) := by
  refine ⟨?_, ?_, ?_, ?_, ?_⟩
  · intro input createdBy now s e hc hf hok
    dsimp only [createEmployee] at hok ⊢
    cases hfind : s.store.find? (fun x => x.email == input.email) with
    | some x =>
      rw [hfind] at hok
      simp at hok
    | none =>
      exact hasListEntry_deletePattern s.cache hc hf
  · intro id input s e hc hf hok
    dsimp only [updateEmployee] at hok ⊢
    by_cases hd : dupEmailCond input id s.store = true
    · rw [if_pos hd] at hok
      simp at hok
    · rw [if_neg hd] at hok ⊢
      cases hfind : s.store.find? (fun x => x.id == id) with
      | none =>
        rw [hfind] at hok
        simp at hok
      | some x =>
        have hflags := cacheDelete_connected s.cache (CacheKey.single id)
        constructor
        · exact hasListEntry_deletePattern _ (hflags.1.trans hc) (hflags.2.trans hf)
        · exact hasKeyEntry_deletePattern_mono _ _
            (hasKeyEntry_delete_self s.cache (CacheKey.single id) hc hf)
  · intro id s hc hf hok
    dsimp only [deleteEmployee] at hok ⊢
    cases hfind : s.store.find? (fun x => x.id == id) with
    | none =>
      rw [hfind] at hok
      simp at hok
    | some x =>
      have hflags := cacheDelete_connected s.cache (CacheKey.single id)
      constructor
      · exact hasListEntry_deletePattern _ (hflags.1.trans hc) (hflags.2.trans hf)
      · exact hasKeyEntry_deletePattern_mono _ _
          (hasKeyEntry_delete_self s.cache (CacheKey.single id) hc hf)
  · intro ids input s hc hf
    dsimp only [bulkUpdateEmployees]
    have hflags := foldlDelete_flags ids s.cache
    constructor
    · exact hasListEntry_deletePattern _ (hflags.1.trans hc) (hflags.2.trans hf)
    · intro i hi
      exact hasKeyEntry_deletePattern_mono _ _ (foldlDelete_absent ids s.cache i hi hc hf)
  · intro id att s e hc hf hok
    dsimp only [markAttendance] at hok ⊢
    cases hfind : s.store.find? (fun x => x.id == id) with
    | none =>
      rw [hfind] at hok
      simp at hok
    | some x =>
      exact hasKeyEntry_delete_self s.cache (CacheKey.single id) hc hf

/-- Witness for C2 (amended): a successful update clears both the
pre-existing list-namespace entry and the per-id entry, and a successful
markAttendance clears the per-id entry, over a concretely populated
cache. -/
theorem C2_amended_invalidation_witness :
    (hasListEntry (updateEmployee 1 { cls := some "Grade 11" }
        { store := [empA], cache := cacheWithListAndSingle, log := [] }).2.cache = false ∧
      hasKeyEntry (updateEmployee 1 { cls := some "Grade 11" }
        { store := [empA], cache := cacheWithListAndSingle, log := [] }).2.cache
        (CacheKey.single 1) = false) ∧
    hasKeyEntry (markAttendance 1 attNew
        { store := [empA], cache := cacheWithSingle, log := [] }).2.cache
      (CacheKey.single 1) = false := by
  constructor
  · exact (C2_amended_invalidation).2.1 1 { cls := some "Grade 11" }
      { store := [empA], cache := cacheWithListAndSingle, log := [] }
      (applySet { cls := some "Grade 11" } empA) rfl rfl rfl
  · exact (C2_amended_invalidation).2.2.2.2 1 attNew
      { store := [empA], cache := cacheWithSingle, log := [] }
      { empA with attendance := empA.attendance ++ [attNew] } rfl rfl rfl

/-- C2 counterexample: markAttendance succeeds at the store, yet the
pre-write `employees:*` cache entry survives, and the identical
listRecords call issued afterwards returns the stale pre-write cached
envelope (recognisable by its total of 99, where the store holds one
record) instead of re-querying the store. -/
theorem C2_counterexample :
    isOkSomeEmp (markAttendance 1 attNew
        { store := [empA], cache := cacheWithStale, log := [] }).1 = true ∧
    hasListEntry (markAttendance 1 attNew
        { store := [empA], cache := cacheWithStale, log := [] }).2.cache = true ∧
    (getEmployees emptyFilter defaultPagination defaultSort
        (markAttendance 1 attNew
          { store := [empA], cache := cacheWithStale, log := [] }).2).1
      = Except.ok staleCachedList :=
  ⟨rfl, rfl, rfl⟩

theorem mem_of_limitTake (n : Int) (l : List Employee) (e : Employee)
    (h : e ∈ limitTake n l) : e ∈ l := by
  unfold limitTake at h
  split_ifs at h with h1
  · exact h
  · exact List.mem_of_mem_take h

theorem listFromStore_total (filter : EmployeeFilter) (pag : PaginationInput)
    (sort : SortSpec) (store : List Employee) :
    onOk (listFromStore filter pag sort store)
      (fun r => r.pagination.total
        == (store.filter (fun e => matchesQuery (buildQuery filter) e)).length) = true := by
  dsimp only [listFromStore]
  split_ifs with h1
  · rfl
  · simp [onOk]

theorem listFromStore_data_sub (filter : EmployeeFilter) (pag : PaginationInput)
    (sort : SortSpec) (store : List Employee) (r : EmployeeConnection)
    (h : listFromStore filter pag sort store = Except.ok r) :
    ∀ e ∈ r.data, e ∈ store.filter (fun x => matchesQuery (buildQuery filter) x) := by
  dsimp only [listFromStore] at h
  split_ifs at h with h1
  simp only [Except.ok.injEq] at h
  subst h
  intro e he
  have h2 := mem_of_limitTake _ _ _ he
  have h3 := List.mem_of_mem_drop h2
  exact (mem_sortEmployees sort e _).mp h3

theorem matchesQuery_isActive (q : NormQuery) (e : Employee)
    (h : matchesQuery q e = true) : e.isActive = q.isActive := by
  unfold matchesQuery at h
  simp only [Bool.and_eq_true, beq_iff_eq] at h
  exact h.1.1.1.1.1.1.1

theorem buildQuery_isActive_none (f : EmployeeFilter) (h : f.isActive = none) :
    (buildQuery f).isActive = true := by
  simp [buildQuery, h]

theorem buildQuery_isActive_some (f : EmployeeFilter) (b : Bool) (h : f.isActive = some b) :
    (buildQuery f).isActive = b := by
  simp [buildQuery, h]

/-- C7: when the filter leaves the active flag unset, listRecords (on a
fresh query, i.e. no cached envelope for this request) returns only
active records and counts only active records; with the active flag
explicitly false it returns only inactive records; and soft delete flips
exactly this visibility — after deleting the only record, the default
list reports total = 0 while the isActive:false list reports total 1. -/
theorem C7_active_visibility :
    (∀ (filter : EmployeeFilter) (pag : PaginationInput) (sort : SortSpec) (s : St),
      filter.isActive = none →
      cacheGet s.cache (listKey filter pag sort) = none →
      onOk (getEmployees filter pag sort s).1
        (fun r => r.data.all (fun e => e.isActive)) = true ∧
      onOk (getEmployees filter pag sort s).1
        (fun r => r.pagination.total
          == (s.store.filter (fun e => matchesQuery (buildQuery filter) e)).length) = true ∧
      (s.store.filter (fun e => matchesQuery (buildQuery filter) e)).all
        (fun e => e.isActive) = true) ∧
    (∀ (filter : EmployeeFilter) (pag : PaginationInput) (sort : SortSpec) (s : St),
      filter.isActive = some false →
      cacheGet s.cache (listKey filter pag sort) = none →
      onOk (getEmployees filter pag sort s).1
        (fun r => r.data.all (fun e => !e.isActive)) = true) ∧
    ((deleteEmployee 1 { store := [empA], cache := cacheUp, log := [] }).1
        = Except.ok true ∧
      isOkResult (getEmployees emptyFilter defaultPagination defaultSort
        (deleteEmployee 1 { store := [empA], cache := cacheUp, log := [] }).2).1 = true ∧
      onOk (getEmployees emptyFilter defaultPagination defaultSort
        (deleteEmployee 1 { store := [empA], cache := cacheUp, log := [] }).2).1
        (fun r => r.pagination.total == 0) = true ∧
      isOkResult (getEmployees { emptyFilter with isActive := some false }
        defaultPagination defaultSort
        (deleteEmployee 1 { store := [empA], cache := cacheUp, log := [] }).2).1 = true ∧
      onOk (getEmployees { emptyFilter with isActive := some false }
        defaultPagination defaultSort
        (deleteEmployee 1 { store := [empA], cache := cacheUp, log := [] }).2).1
        (fun r => r.pagination.total == 1) = true) := by
  refine ⟨?_, ?_, ?_⟩
  · intro filter pag sort s hfa hmiss
    have hres : (getEmployees filter pag sort s).1 = listFromStore filter pag sort s.store := by
      rw [getEmployees_result, hmiss]
    have hallact : (s.store.filter (fun e => matchesQuery (buildQuery filter) e)).all
        (fun e => e.isActive) = true := by
      rw [List.all_eq_true]
      intro e he
      have hm := (List.mem_filter.mp he).2
      rw [matchesQuery_isActive _ _ hm, buildQuery_isActive_none filter hfa]
    refine ⟨?_, ?_, hallact⟩
    · rw [hres]
      cases hl : listFromStore filter pag sort s.store with
      | error er => rfl
      | ok r =>
        dsimp only [onOk]
        rw [List.all_eq_true]
        intro e he
        have h4 := listFromStore_data_sub filter pag sort s.store r hl e he
        have hm := (List.mem_filter.mp h4).2
        rw [matchesQuery_isActive _ _ hm, buildQuery_isActive_none filter hfa]
    · rw [hres]
      exact listFromStore_total filter pag sort s.store
  · intro filter pag sort s hfa hmiss
    have hres : (getEmployees filter pag sort s).1 = listFromStore filter pag sort s.store := by
      rw [getEmployees_result, hmiss]
    rw [hres]
    cases hl : listFromStore filter pag sort s.store with
    | error er => rfl
    | ok r =>
      dsimp only [onOk]
      rw [List.all_eq_true]
      intro e he
      have h4 := listFromStore_data_sub filter pag sort s.store r hl e he
      have hm := (List.mem_filter.mp h4).2
      rw [matchesQuery_isActive _ _ hm, buildQuery_isActive_some filter false hfa]
      rfl
  · exact ⟨rfl, rfl, rfl, rfl, rfl⟩

/-- Witness for C7 on a roster with one active and one inactive record:
the default-filter list contains only active records and totals 1. -/
theorem C7_active_visibility_witness :
    onOk (getEmployees emptyFilter defaultPagination defaultSort
        { store := [empA, empB], cache := cacheUp, log := [] }).1
      (fun r => r.data.all (fun e => e.isActive)) = true ∧
    onOk (getEmployees emptyFilter defaultPagination defaultSort
        { store := [empA, empB], cache := cacheUp, log := [] }).1
      (fun r => r.pagination.total
        == ((([empA, empB] : List Employee)).filter
            (fun e => matchesQuery (buildQuery emptyFilter) e)).length) = true := by
  have h := (C7_active_visibility).1 emptyFilter defaultPagination defaultSort
    { store := [empA, empB], cache := cacheUp, log := [] } rfl rfl
  exact ⟨h.1, h.2.1⟩

/-- C1: evaluation of the code at the failing input.  The claim says a
member-role caller's listRecords is restricted to their own record, and
denied when the back-reference is absent.  In the code, the resolver
replaces the filter with `{ _id: employeeRef }`, but the service never
reads the `_id` key of the filter, so a member with back-reference 1
receives every active record (total 2, including record id 3); and with
no back-reference at all the caller's filter is passed through
unchanged, so the call is not denied and again returns every active
record. -/
theorem C1_member_list_leak :
    isOkResult (resolverEmployees
        (some { id := 9, email := "m@x.com", role := Role.employee, employeeRef := some 1 })
        emptyFilter defaultPagination defaultSort
        { store := [empA, empC], cache := cacheUp, log := [] }).1 = true ∧
    onOk (resolverEmployees
        (some { id := 9, email := "m@x.com", role := Role.employee, employeeRef := some 1 })
        emptyFilter defaultPagination defaultSort
        { store := [empA, empC], cache := cacheUp, log := [] }).1
      (fun r => r.data.any (fun e => e.id == 3) && (r.pagination.total == 2)) = true ∧
    isOkResult (resolverEmployees
        (some { id := 9, email := "m@x.com", role := Role.employee, employeeRef := none })
        emptyFilter defaultPagination defaultSort
        { store := [empA, empC], cache := cacheUp, log := [] }).1 = true ∧
    onOk (resolverEmployees
        (some { id := 9, email := "m@x.com", role := Role.employee, employeeRef := none })
        emptyFilter defaultPagination defaultSort
        { store := [empA, empC], cache := cacheUp, log := [] }).1
      (fun r => r.data.any (fun e => e.id == 3) && (r.pagination.total == 2)) = true :=
  ⟨rfl, rfl, rfl, rfl⟩
